import Mathlib

/-!
Verification of the tf-data-client provider lifecycle and artifact-cache
subsystem.  The definitions below are a shallow embedding of the Go source:

* `goClean`, `goJoin`, `goJoinList` model `path/filepath.Clean` and
  `filepath.Join` for unix separators;
* `extractZip` models `cache.extractZip` (part_002), including the zip-slip
  guard;
* `FilesystemCache.Get`, `Has`, `GetOrPut` model the filesystem cache of
  part_002, with the external effects (file lock, stat, download, chmod,
  mkdir, rename) supplied by an environment record describing the outcome
  of each effectful step, and the canonical directory / staging area
  tracked explicitly as state;
* `semverParts` / `GetLatestVersion` model registry.go;
* `findPV` models the regular expression
  Plugin version:\s*(\d+).*Client versions:\s*\[(\d+)\]
  with Go leftmost-first semantics;
* `launchProvider`, `CreateProvider`, `Configure`, `decodeDynamicValue`
  model provider.go (part_003), client.go and codec.go (part_006).
-/

/-- Whether one character list is a prefix of another, by structural
recursion (so that concrete instances evaluate inside the kernel). -/
def listPref : List Char → List Char → Bool
  | [], _ => true
  | _ :: _, [] => false
  | a :: as, b :: bs => a = b && listPref as bs

/-- Model of `strings.HasPrefix(s, pre)` / `s.startsWith(pre)`. -/
def strPref (pre s : String) : Bool := listPref pre.data s.data

/-- Split a character list on a separator character; always returns at
least one group. -/
def chSplit (sep : Char) : List Char → List (List Char)
  | [] => [[]]
  | c :: rest =>
    match chSplit sep rest with
    | [] => [[]]
    | g :: gs => if c = sep then [] :: g :: gs else (c :: g) :: gs

/-- Model of `strings.Split` for a one-character separator. -/
def strSplit (s : String) (sep : Char) : List String :=
  (chSplit sep s.data).map String.mk

/-- Model of `strings.Join(parts, sep)`. -/
def joinWith (sep : String) : List String → String
  | [] => ""
  | [p] => p
  | p :: ps => p ++ sep ++ joinWith sep ps

/-- Components of a slash-separated path, as `strings.Split(s, "/")`. -/
def pathComps (s : String) : List String := strSplit s '/'

/-- One step of Go `filepath.Clean`: push a path component onto the stack of
already-cleaned components (stored in reverse).  Empty and `.` components are
dropped; `..` pops a non-`..` component, is dropped at the root of a rooted
path, and is kept otherwise. -/
def cleanPush (rooted : Bool) (stack : List String) (c : String) : List String :=
  if c = "" || c = "." then stack
  else if c = ".." then
    match stack with
    | [] => if rooted then [] else [".."]
    | top :: rest => if top = ".." then c :: top :: rest else rest
  else c :: stack

/-- Model of Go `path/filepath.Clean` for unix separators. -/
def goClean (path : String) : String :=
  if path = "" then "."
  else
    let rooted := strPref "/" path
    let stack := (pathComps path).foldl (cleanPush rooted) []
    let out := joinWith "/" stack.reverse
    if rooted then
      if out = "" then "/" else "/" ++ out
    else
      if out = "" then "." else out

/-- Model of Go `filepath.Join` on two elements: empty elements are dropped,
the rest are joined with `/` and cleaned; joining only empty strings gives
the empty string. -/
def goJoin (a b : String) : String :=
  if a = "" && b = "" then ""
  else if a = "" then goClean b
  else if b = "" then goClean a
  else goClean (a ++ "/" ++ b)

/-- Model of Go `filepath.Join` on a list of elements. -/
def goJoinList (elems : List String) : String :=
  let ne := elems.filter (fun s => s ≠ "")
  if ne.isEmpty then "" else goClean (joinWith "/" ne)

/-- One entry of a zip archive: its stored name and whether it is a
directory entry.  File bodies and modes are irrelevant to the verified
properties and are not modelled. -/
structure ZipEntry where
  name : String
  isDir : Bool
deriving DecidableEq, Repr

/-- Destination path of an archive entry inside `destDir`, as computed by
`extractZip`: `fpath := filepath.Join(destDir, f.Name)`. -/
def entryPath (destDir entryName : String) : String :=
  goJoin destDir entryName

/-- The zip-slip condition checked by `extractZip`: the entry is rejected
when its resolved destination path does not keep `Clean(destDir) + "/"` as
a prefix. -/
def escapesDest (destDir entryName : String) : Bool :=
  !(strPref (goClean destDir ++ "/") (entryPath destDir entryName))

/-- Loop of `extractZip` over the archive entries, accumulating the
destination paths created so far (directory entries create directories,
file entries are written; both are recorded).  The first entry failing the
zip-slip check aborts the whole extraction with an error. -/
def extractLoop (destDir : String) : List ZipEntry → List String → Except String (List String)
  | [], acc => .ok acc.reverse
  | e :: es, acc =>
    let fpath := entryPath destDir e.name
    if escapesDest destDir e.name then .error ("invalid file path: " ++ fpath)
    else extractLoop destDir es (fpath :: acc)

/-- Model of `cache.extractZip` (part_002 lines 188-234).  `openOk` is the
outcome of `zip.OpenReader`; on success the write of each entry is modelled
as succeeding, so the result is the list of created paths. -/
def extractZip (openOk : Bool) (entries : List ZipEntry) (destDir : String) :
    Except String (List String) :=
  if openOk then extractLoop destDir entries []
  else .error "failed to open zip"

namespace FilesystemCache

/-- State of the parts of the filesystem that `GetOrPut` for a fixed
`ArtifactID` may read or write: the listing of the canonical directory for
that id (`none` = the directory is absent) and the set of staging
directories currently present under `.tmp/`. -/
structure FS where
  canon : Option (List String)
  tmps : List String
deriving DecidableEq, Repr

/-- Model of `findProviderExecutable` (part_002 lines 177-186): glob
`terraform-provider-<name>*` over the directory listing (assumed given in
the sorted order `filepath.Glob` returns) and return the full path of the
first match, or `""` when the directory is absent or has no match. -/
def findProviderExecutable (dirPath : String) (listing : Option (List String))
    (name : String) : String :=
  match (listing.getD []).filter (fun f => strPref ("terraform-provider-" ++ name) f) with
  | [] => ""
  | f :: _ => dirPath ++ "/" ++ f

/-- Canonical directory for an id: `filepath.Join(baseDir, ns, name, ver)`. -/
def providerDir (base ns name ver : String) : String :=
  goJoinList [base, ns, name, ver]

/-- Model of `FilesystemCache.Get` (part_002 lines 35-46).  `statOk` is the
outcome of `os.Stat` on a given path.  Returns the executable path and the
error value, which is always `none`. -/
def Get (statOk : String → Bool) (dirPath : String) (listing : Option (List String))
    (name : String) : String × Option String :=
  let execPath := findProviderExecutable dirPath listing name
  if execPath ≠ "" && statOk execPath then (execPath, none) else ("", none)

/-- Model of `FilesystemCache.Has` (part_002 lines 76-83). -/
def Has (statOk : String → Bool) (dirPath : String) (listing : Option (List String))
    (name : String) : Bool :=
  (Get statOk dirPath listing name).1 ≠ ""

/-- Names of the files or directories lying directly under `dirPath`, out of
a list of full paths: these are what `filepath.Glob` can match in that
directory (the `*` of the pattern does not cross a separator). -/
def topNames (dirPath : String) (paths : List String) : List String :=
  paths.filterMap (fun p =>
    if strPref (dirPath ++ "/") p then
      let n := String.mk (p.data.drop (dirPath ++ "/").data.length)
      if n ≠ "" && !(n.data.any (fun c => c = '/')) then some n else none
    else none)

/-- Outcomes of the effectful steps taken by one `GetOrPut` call: the file
lock acquisition, `os.Stat`, the producer `downloadFn` (on success, the
entries of the downloaded archive), `zip.OpenReader`, `createTempDir` (on
success, the random suffix of the fresh staging directory), `os.Chmod`,
`os.MkdirAll` on the canonical parents, and `os.Rename`. -/
structure GopEnv where
  lockOk : Bool
  statOk : String → Bool
  download : Except String (List ZipEntry)
  zipOpenOk : Bool
  tmpSuffix : Option String
  chmodOk : Bool
  mkdirParentsOk : Bool
  renameOk : Bool

/-- Model of `FilesystemCache.GetOrPut` (part_002 lines 85-154) for a fixed
id, mirroring the Go control flow step by step.  Returns the result, the
final filesystem state, and whether `downloadFn` was invoked. -/
def GetOrPut (base ns name ver : String) (env : GopEnv) (fs : FS) :
    Except String String × FS × Bool :=
  if !env.lockOk then (.error "failed to acquire cache lock", fs, false)
  else
    let dir := providerDir base ns name ver
    let execPath := (Get env.statOk dir fs.canon name).1
    if execPath ≠ "" then (.ok execPath, fs, false)
    else
      match env.download with
      | .error e => (.error e, fs, true)
      | .ok entries =>
        match env.tmpSuffix with
        | none => (.error "failed to create temp directory", fs, true)
        | some suf =>
          let tmpDir := base ++ "/.tmp/" ++ suf
          match extractZip env.zipOpenOk entries tmpDir with
          | .error e => (.error ("failed to extract provider: " ++ e), fs, true)
          | .ok written =>
            let listing := topNames tmpDir written
            let tmpExec := findProviderExecutable tmpDir (some listing) name
            if tmpExec = "" then
              (.error "provider executable not found after extraction", fs, true)
            else if !env.chmodOk then
              (.error "failed to make provider executable", fs, true)
            else if !env.mkdirParentsOk then
              (.error "failed to create cache directory", fs, true)
            else if !env.renameOk then
              (.error "failed to move provider to cache", fs, true)
            else
              ((.ok (findProviderExecutable dir (some listing) name)),
               { canon := some listing, tmps := fs.tmps }, true)

end FilesystemCache

namespace Registry

/-- Information about one provider version as returned by `GetVersions`
(registry.go, types in part_004). -/
structure VersionInfo where
  version : String
  protocols : List String
deriving DecidableEq, Repr, Inhabited

/-- Download metadata as returned by `GetDownloadInfo` (part_004). -/
structure DownloadInfo where
  os : String
  arch : String
  filename : String
  downloadURL : String
  sha256Sum : String
deriving DecidableEq, Repr, Inhabited

/-- Model of Go `strconv.Atoi` with the error ignored, as the call sites in
`semverParts` do: an optional sign followed only by digits parses to its
value, anything else yields 0. -/
def atoiOr0 (s : String) : Int :=
  let neg := strPref "-" s
  let digits := if neg || strPref "+" s then String.mk (s.data.drop 1) else s
  if digits ≠ "" && digits.data.all Char.isDigit then
    let n : Nat := digits.data.foldl (fun a c => a * 10 + (c.toNat - 48)) 0
    if neg then -(n : Int) else (n : Int)
  else 0

/-- Model of `semverParts` (registry.go lines 213-233): strip a leading
`v`, drop everything from the first `-` or `+`, split on `.`, and parse up
to three integer components, missing or unparseable ones as 0. -/
def semverParts (v : String) : Int × Int × Int :=
  let v := if strPref "v" v then String.mk (v.data.drop 1) else v
  let v := String.mk (v.data.takeWhile (fun c => c ≠ '-' && c ≠ '+'))
  let parts := strSplit v '.'
  (atoiOr0 (parts.getD 0 ""),
   atoiOr0 (parts.getD 1 ""),
   atoiOr0 (parts.getD 2 ""))

end Registry

namespace Registry

/-- Lexicographic order on parsed `(major, minor, patch)` triples.  This is
the non-strict counterpart of the `less` closure passed to `sort.Slice` in
`GetLatestVersion` (registry.go lines 118-128). -/
def tripLe (x y : Int × Int × Int) : Prop :=
  x.1 < y.1 ∨ (x.1 = y.1 ∧ (x.2.1 < y.2.1 ∨ (x.2.1 = y.2.1 ∧ x.2.2 ≤ y.2.2)))

instance : DecidableRel tripLe := fun _ _ => by
  unfold tripLe; infer_instance

/-- Order on `VersionInfo` induced by `semverParts`, used to sort the
version list. -/
def verLe (a b : VersionInfo) : Prop :=
  tripLe (semverParts a.version) (semverParts b.version)

instance : DecidableRel verLe := fun _ _ => by
  unfold verLe; infer_instance

instance : IsTotal VersionInfo verLe :=
  ⟨fun a b => by
    unfold verLe tripLe
    obtain ⟨a1, a2, a3⟩ := semverParts a.version
    obtain ⟨b1, b2, b3⟩ := semverParts b.version
    simp only
    omega⟩

instance : IsTrans VersionInfo verLe :=
  ⟨fun a b c hab hbc => by
    unfold verLe tripLe at *
    generalize semverParts a.version = x at *
    generalize semverParts b.version = y at *
    generalize semverParts c.version = z at *
    obtain ⟨x1, x2, x3⟩ := x
    obtain ⟨y1, y2, y3⟩ := y
    obtain ⟨z1, z2, z3⟩ := z
    simp only at *
    omega⟩

/-- Model of `TerraformRegistry.GetLatestVersion` (registry.go lines
106-132), applied to the outcome of `GetVersions`: propagate its error,
fail with "no versions found" on an empty list, otherwise sort by
`semverParts` and return the version string of the last element.
`sort.Slice` runs plain insertion sort at this input size, which is the
stable sort modelled by `List.insertionSort`. -/
def GetLatestVersion (ns name : String) (vres : Except String (List VersionInfo)) :
    Except String String :=
  match vres with
  | .error e => .error e
  | .ok versions =>
    if versions.isEmpty then
      .error ("no versions found for provider " ++ ns ++ "/" ++ name)
    else
      .ok ((versions.insertionSort verLe).getLastD default).version

/-- Outcome of one HTTP request made by the registry client: a transport
error, or a response with a status code and (for 200) whether the body
decoded, plus the decoded value. -/
inductive HttpOutcome (α : Type) where
  | netErr (msg : String)
  | resp (status : Nat) (decodeOk : Bool) (body : α)

/-- Model of `TerraformRegistry.GetVersions` (registry.go lines 67-104):
404 maps to "provider not found", any other non-200 to a generic status
error, and a 200 body that fails to decode to a decode error. -/
def GetVersions (o : HttpOutcome (List VersionInfo)) (ns name : String) :
    Except String (List VersionInfo) :=
  match o with
  | .netErr m => .error ("failed to fetch versions: " ++ m)
  | .resp status decodeOk body =>
    if status = 404 then .error ("provider " ++ ns ++ "/" ++ name ++ " not found")
    else if status ≠ 200 then .error ("registry returned status " ++ toString status)
    else if !decodeOk then .error "failed to decode versions response"
    else .ok body

/-- Model of `TerraformRegistry.GetDownloadInfo` (registry.go lines
135-176): 404 maps to the generic string error "version ... not found for
provider ...", any other non-200 to a status error.  Note the error is a
plain formatted string, not a typed error value. -/
def GetDownloadInfo (o : HttpOutcome DownloadInfo) (ns name ver : String) :
    Except String DownloadInfo :=
  match o with
  | .netErr m => .error ("failed to fetch download info: " ++ m)
  | .resp status decodeOk body =>
    if status = 404 then
      .error ("version " ++ ver ++ " not found for provider " ++ ns ++ "/" ++ name)
    else if status ≠ 200 then
      .error ("registry returned status " ++ toString status ++ " for download info")
    else if !decodeOk then .error "failed to decode download response"
    else .ok body

end Registry

/-- Character class \s of Go regular expressions. -/
def isGoSpace (c : Char) : Bool :=
  c = ' ' || c = '\t' || c = '\n' || c = '\x0c' || c = '\r'

/-- Strip a literal off the front of the input, or fail. -/
def stripLit : List Char → List Char → Option (List Char)
  | [], cs => some cs
  | _ :: _, [] => none
  | l :: ls, c :: cs => if c = l then stripLit ls cs else none

/-- Numeric value of a digit string. -/
def digitsToNat (ds : List Char) : Nat :=
  ds.foldl (fun a c => a * 10 + (c.toNat - 48)) 0

/-- Greedy \d+ at the front of the input: its value and the rest. -/
def takeDigits1 (cs : List Char) : Option (Nat × List Char) :=
  let ds := cs.takeWhile Char.isDigit
  if ds.isEmpty then none else some (digitsToNat ds, cs.dropWhile Char.isDigit)

/-- Match of the subpattern Client versions:\s*\[(\d+)\] at the front of the
input, returning the bracketed integer. -/
def tailNum (cs : List Char) : Option Nat := do
  let r ← stripLit "Client versions:".data cs
  let r := r.dropWhile isGoSpace
  let r ← stripLit "[".data r
  let (n, r) ← takeDigits1 r
  let _ ← stripLit "]".data r
  pure n

/-- Greedy .* followed by the tail subpattern: the tail is matched at the
last position of the input where it can start.  Returns its integer. -/
def lastTail : List Char → Option Nat
  | [] => none
  | c :: cs =>
    match lastTail cs with
    | some n => some n
    | none => tailNum (c :: cs)

/-- Match of the whole pattern anchored at the front of the input:
Plugin version:, then \s* and a greedy (\d+) (greediness is exact here
because a digit is neither \s nor able to extend a failing tail), then the
greedy .* and the Client versions tail. -/
def matchFrom (cs : List Char) : Option (Nat × Nat) := do
  let r ← stripLit "Plugin version:".data cs
  let r := r.dropWhile isGoSpace
  let (a, r) ← takeDigits1 r
  let b ← lastTail r
  pure (a, b)

/-- Model of `protocolVersionRegex.FindStringSubmatch` (part_003 lines
17-19) returning the two captured integers: the Go regexp package finds the
match starting at the leftmost possible position. -/
def findPV : List Char → Option (Nat × Nat)
  | [] => none
  | c :: cs =>
    match matchFrom (c :: cs) with
    | some r => some r
    | none => findPV cs

namespace Provider

/-- Internal error type of `launchProvider`: the typed protocol-mismatch
signal (`errProtocolMismatch` in part_003) or a wrapped generic failure. -/
inductive LaunchErr where
  | protoMismatch (pluginVersion clientVersion : Nat)
  | failed (msg : String)
deriving DecidableEq, Repr

/-- Outcome of the effectful part of `launchProvider`: the handshake
(`client.Client()`) may fail with an error message, the dispense step may
fail, or the dispensed value may have an unexpected type. -/
inductive LaunchOutcome where
  | ok
  | clientErr (msg : String)
  | dispenseErr (msg : String)
  | badType (tyName : String)
deriving DecidableEq, Repr

/-- Model of `launchProvider` (part_003 lines 80-127): on a handshake
failure the message is matched against `protocolVersionRegex`; a match
yields the typed `errProtocolMismatch` carrying the two parsed integers,
anything else a wrapped generic failure. -/
def launchProvider (o : LaunchOutcome) : Except LaunchErr Unit :=
  match o with
  | .ok => .ok ()
  | .clientErr msg =>
    match findPV msg.data with
    | some (p, c) => .error (.protoMismatch p c)
    | none => .error (.failed ("failed to get RPC client: " ++ msg))
  | .dispenseErr msg => .error (.failed ("failed to dispense provider: " ++ msg))
  | .badType t => .error (.failed ("unexpected provider type: " ++ t))

/-- Presence structure of a loaded provider schema: whether the
`Provider` block is present, and the type names of the data sources. -/
structure ProviderSchema where
  providerBlock : Option Unit
  dataSources : List String
deriving DecidableEq, Repr

/-- The session state touched by `Configure` and `IsConfigured`: the cached
schema (`none` = not loaded) and the `configured` flag, which is `false`
when `launchProvider` builds the struct. -/
structure ProvState where
  schema : Option ProviderSchema
  configured : Bool
deriving DecidableEq, Repr

/-- Outcomes of the fallible steps inside `Configure`: the schema-to-type
conversion, the untyped-to-cty conversion, the msgpack marshal, the
`ConfigureProvider` RPC, and its diagnostics check. -/
structure CfgEnv where
  blockToTypeOk : Bool
  mapToValOk : Bool
  marshalOk : Bool
  rpcOk : Bool
  diagsOk : Bool
deriving DecidableEq, Repr

/-- Model of `provider.Configure` (part_003 lines 149-189), mirroring the
Go control flow: every failing step returns early with an error and leaves
the state untouched; only the final success sets `configured`. -/
def Configure (env : CfgEnv) (p : ProvState) : Except String Unit × ProvState :=
  match p.schema with
  | none => (.error "schema not loaded", p)
  | some sch =>
    match sch.providerBlock with
    | none => (.error "provider schema not found", p)
    | some _ =>
      if !env.blockToTypeOk then (.error "failed to convert provider schema to type", p)
      else if !env.mapToValOk then (.error "failed to convert config to cty value", p)
      else if !env.marshalOk then (.error "failed to marshal config", p)
      else if !env.rpcOk then (.error "failed to configure provider", p)
      else if !env.diagsOk then (.error "configure provider error", p)
      else (.ok (), { p with configured := true })

/-- Model of `provider.IsConfigured` (part_003 lines 144-147). -/
def IsConfigured (p : ProvState) : Bool := p.configured

/-- Whether one `Configure` call on state `p` returns success. -/
def configureSucceeds (env : CfgEnv) (p : ProvState) : Bool :=
  match (Configure env p).1 with
  | .ok _ => true
  | .error _ => false

/-- State after a sequence of `Configure` calls with the given step
outcomes. -/
def runConfigures (envs : List CfgEnv) (p : ProvState) : ProvState :=
  envs.foldl (fun st e => (Configure e st).2) p

end Provider

/-- Model of the `DynamicValue` wire envelope (tfplugin6): msgpack and JSON
payload bytes. -/
structure DynValue where
  msgpack : List Nat
  json : List Nat
deriving DecidableEq, Repr

/-- Model of `decodeDynamicValue` (part_006 lines 144-159), polymorphic in
the cty type and value representations: the library decoders
`msgpack.Unmarshal` and `ctyjson.Unmarshal` and the null constructor
`cty.NullVal` are parameters, the dispatch between them is the code's. -/
def decodeDynamicValue {Ty Val : Type} (nullVal : Ty → Val)
    (mpUnmarshal jsonUnmarshal : List Nat → Ty → Except String Val)
    (dv : Option DynValue) (ty : Ty) : Except String Val :=
  match dv with
  | none => .ok (nullVal ty)
  | some d =>
    if d.msgpack.length > 0 then mpUnmarshal d.msgpack ty
    else if d.json.length > 0 then jsonUnmarshal d.json ty
    else .ok (nullVal ty)

namespace Client

/-- Typed errors of errors.go that `CreateProvider` can return, carrying
their contextual fields.  `versionNotFound` models `ErrVersionNotFound`,
which errors.go declares. -/
inductive ClientErr where
  | providerNotFound (ns name cause : String)
  | versionNotFound (ns name ver : String)
  | downloadFailed (ns name ver cause : String)
  | launchFailed (ns name ver cause : String)
  | protocolUnsupported (ns name ver : String) (providerVersion clientVersion : Nat)
  | schemaFailed (ns name cause : String)
deriving DecidableEq, Repr

/-- Resolved key of a provider: `providerKey` of client.go. -/
def providerKey (ns name ver : String) : String :=
  ns ++ "/" ++ name ++ "@" ++ ver

/-- Go map assignment on an association list: replaces the binding of the
key if present. -/
def upsert (m : List (String × String)) (k v : String) : List (String × String) :=
  (k, v) :: m.filter (fun p => p.1 ≠ k)

/-- Orchestrator state guarded by the client mutex: the map of live
sessions keyed by `providerKey`, the latest-alias map, and a counter
supplying the identity of the next launched session. -/
structure ClientState where
  providers : List (String × Nat)
  latestKeys : List (String × String)
  nextSession : Nat
deriving DecidableEq, Repr

/-- Outcomes of the effectful steps of one `CreateProvider` call: the
registry `GetLatestVersion` result, the `getOrDownloadProvider` result
(the executable path), the launch outcome, and the `getSchema` outcome. -/
structure CPEnv where
  latest : Except String String
  download : Except String String
  launch : Provider.LaunchOutcome
  schema : Except String Unit

/-- Which effectful steps a `CreateProvider` call performed. -/
structure CPEvents where
  downloaded : Bool
  launched : Bool
deriving DecidableEq, Repr

/-- Model of `Client.CreateProvider` (src/client.go lines 82-161),
mirroring the Go control flow: resolve the version (empty = latest),
return a live session under the resolved key if present, otherwise
download, launch, fetch the schema, register and return.  Sessions are
identified by the allocation counter. -/
def CreateProvider (env : CPEnv) (st : ClientState) (ns name ver : String) :
    Except ClientErr Nat × ClientState × CPEvents :=
  let resolved : Except ClientErr String :=
    if ver = "" then
      match env.latest with
      | .error e => .error (.providerNotFound ns name e)
      | .ok v => .ok v
    else .ok ver
  match resolved with
  | .error e => (.error e, st, ⟨false, false⟩)
  | .ok v =>
    let key := providerKey ns name v
    match st.providers.lookup key with
    | some sid =>
      let st1 := if ver = "" then
        { st with latestKeys := upsert st.latestKeys (ns ++ "/" ++ name) key }
      else st
      (.ok sid, st1, ⟨false, false⟩)
    | none =>
      match env.download with
      | .error e => (.error (.downloadFailed ns name v e), st, ⟨true, false⟩)
      | .ok _execPath =>
        match Provider.launchProvider env.launch with
        | .error (.protoMismatch p c) =>
          (.error (.protocolUnsupported ns name v p c), st, ⟨true, true⟩)
        | .error (.failed m) =>
          (.error (.launchFailed ns name v m), st, ⟨true, true⟩)
        | .ok _ =>
          let sid := st.nextSession
          match env.schema with
          | .error e =>
            (.error (.schemaFailed ns name e), { st with nextSession := sid + 1 }, ⟨true, true⟩)
          | .ok _ =>
            let st1 := { st with providers := (key, sid) :: st.providers,
                                 nextSession := sid + 1 }
            let st2 := if ver = "" then
              { st1 with latestKeys := upsert st1.latestKeys (ns ++ "/" ++ name) key }
            else st1
            (.ok sid, st2, ⟨true, true⟩)

/-- The producer closure passed to `GetOrPut` by `getOrDownloadProvider`
(src/client.go lines 174-194): fetch download info, create a temp file,
stream the archive into it; each failure is wrapped with its context
prefix. -/
def producerResult (dlInfo : Registry.HttpOutcome Registry.DownloadInfo)
    (tmpFileOk : Bool) (downloadErr : Option String)
    (ns name ver tmpPath : String) : Except String String :=
  match Registry.GetDownloadInfo dlInfo ns name ver with
  | .error e => .error ("failed to get download info: " ++ e)
  | .ok _info =>
    if !tmpFileOk then .error "failed to create temp file"
    else
      match downloadErr with
      | some e => .error ("failed to download provider: " ++ e)
      | none => .ok tmpPath

end Client

deriving instance DecidableEq for Except

/-! Helper lemmas shared by the claim theorems. -/

/-- One `GetOrPut` call either leaves the filesystem state untouched or
returns a success value. -/
theorem gop_state_cases (base ns name ver : String) (env : FilesystemCache.GopEnv)
    (fs : FilesystemCache.FS) :
    (FilesystemCache.GetOrPut base ns name ver env fs).2.1 = fs ∨
    ∃ p, (FilesystemCache.GetOrPut base ns name ver env fs).1 = .ok p := by
  unfold FilesystemCache.GetOrPut
  dsimp only
  repeat' split
  all_goals first
    | exact Or.inl rfl
    | exact Or.inr ⟨_, rfl⟩

/-- An archive entry that escapes the destination makes the extraction
loop fail, whatever was already written. -/
theorem extractLoop_error_of_escape (destDir : String) :
    ∀ (entries : List ZipEntry) (acc : List String),
      (∃ en ∈ entries, escapesDest destDir en.name = true) →
      ∃ msg, extractLoop destDir entries acc = .error msg := by
  intro entries
  induction entries with
  | nil => intro acc h; simp at h
  | cons e es ih =>
    intro acc h
    unfold extractLoop
    dsimp only
    by_cases he : escapesDest destDir e.name
    · exact ⟨"invalid file path: " ++ entryPath destDir e.name, by simp [he]⟩
    · rcases h with ⟨en, hmem, hesc⟩
      rcases List.mem_cons.mp hmem with rfl | hmem2
      · exact absurd hesc he
      · rcases ih (entryPath destDir e.name :: acc) ⟨en, hmem2, hesc⟩ with ⟨msg, hmsg⟩
        exact ⟨msg, by simp [he, hmsg]⟩

/-- A key whose lookup pairs all differ from it is not among the mapped
keys. -/
theorem not_mem_map_fst_of_forall {k : String} {l : List (String × Nat)}
    (h : ∀ a b, (a, b) ∈ l → ¬ k = a) : k ∉ l.map Prod.fst := by
  intro hm
  obtain ⟨⟨a, b⟩, hmem, rfl⟩ := List.mem_map.mp hm
  exact h a b hmem rfl

/-- The last element of a sorted list is above every element, for a total
relation. -/
theorem sorted_getLast?_max {α : Type} {r : α → α → Prop}
    (htot : ∀ a b : α, r a b ∨ r b a) :
    ∀ {l : List α}, l.Sorted r → ∀ m, l.getLast? = some m → m ∈ l ∧ ∀ x ∈ l, r x m := by
  intro l
  induction l with
  | nil => intro _ m hm; cases hm
  | cons a t ih =>
    intro hs m hm
    cases t with
    | nil =>
      simp only [List.getLast?_singleton, Option.some.injEq] at hm
      subst hm
      refine ⟨List.mem_singleton_self a, ?_⟩
      intro x hx
      rcases List.mem_singleton.mp hx with rfl
      rcases htot x x with h | h <;> exact h
    | cons b t2 =>
      rw [List.getLast?_cons_cons] at hm
      obtain ⟨hmem, hmax⟩ := ih ((List.sorted_cons.mp hs).2) m hm
      refine ⟨List.mem_cons_of_mem a hmem, ?_⟩
      intro x hx
      rcases List.mem_cons.mp hx with rfl | hx2
      · exact (List.sorted_cons.mp hs).1 m hmem
      · exact hmax x hx2

/-- A `Configure` call that returns an error leaves the session state
exactly as it was. -/
theorem configure_error_id (env : Provider.CfgEnv) (p : Provider.ProvState) (e : String)
    (h : (Provider.Configure env p).1 = .error e) : (Provider.Configure env p).2 = p := by
  unfold Provider.Configure at h ⊢
  repeat' (first | split at h | split)
  all_goals simp_all

/-- A `Configure` call that returns success leaves the flag set. -/
theorem configure_ok_flag (env : Provider.CfgEnv) (p : Provider.ProvState) (u : Unit)
    (h : (Provider.Configure env p).1 = .ok u) :
    (Provider.Configure env p).2.configured = true := by
  unfold Provider.Configure at h ⊢
  repeat' (first | split at h | split)
  all_goals simp_all

/-- The configured flag never goes back from `true` under further
`Configure` calls. -/
theorem configured_mono (envs : List Provider.CfgEnv) :
    ∀ p : Provider.ProvState, p.configured = true →
      (Provider.runConfigures envs p).configured = true := by
  induction envs with
  | nil => intro p h; exact h
  | cons e es ih =>
    intro p h
    unfold Provider.runConfigures at ih ⊢
    simp only [List.foldl_cons]
    apply ih
    unfold Provider.Configure
    repeat' split
    all_goals simp_all

/-- C1: whenever `GetOrPut` fails, for any reason (lock acquisition
failure, producer error, temp-dir creation, extraction error, no matching
executable, chmod failure, mkdir failure, or rename failure), the
canonical cache directory for the id is exactly as it was before the call
and no staging directory created during the call remains under `.tmp/`. -/
theorem getOrPut_failure_preserves_cache (base ns name ver : String)
    (env : FilesystemCache.GopEnv) (fs : FilesystemCache.FS) (e : String)
    (h : (FilesystemCache.GetOrPut base ns name ver env fs).1 = .error e) :
    (FilesystemCache.GetOrPut base ns name ver env fs).2.1.canon = fs.canon ∧
    (FilesystemCache.GetOrPut base ns name ver env fs).2.1.tmps = fs.tmps := by
  rcases gop_state_cases base ns name ver env fs with hs | ⟨p, hp⟩
  · exact ⟨by rw [hs], by rw [hs]⟩
  · rw [hp] at h; cases h

/-- C1 witness: a failing call (producer error) at a concrete input leaves
the canonical listing and the staging area unchanged. -/
theorem getOrPut_failure_preserves_cache_witness :
    (FilesystemCache.GetOrPut "/c" "ns" "prov" "1.0.0"
      { lockOk := true, statOk := fun _ => true, download := .error "boom",
        zipOpenOk := true, tmpSuffix := some "ab12", chmodOk := true,
        mkdirParentsOk := true, renameOk := true }
      { canon := none, tmps := ["/c/.tmp/old"] }).2.1.canon =
      (⟨none, ["/c/.tmp/old"]⟩ : FilesystemCache.FS).canon ∧
    (FilesystemCache.GetOrPut "/c" "ns" "prov" "1.0.0"
      { lockOk := true, statOk := fun _ => true, download := .error "boom",
        zipOpenOk := true, tmpSuffix := some "ab12", chmodOk := true,
        mkdirParentsOk := true, renameOk := true }
      { canon := none, tmps := ["/c/.tmp/old"] }).2.1.tmps =
      (⟨none, ["/c/.tmp/old"]⟩ : FilesystemCache.FS).tmps :=
  getOrPut_failure_preserves_cache "/c" "ns" "prov" "1.0.0"
    { lockOk := true, statOk := fun _ => true, download := .error "boom",
      zipOpenOk := true, tmpSuffix := some "ab12", chmodOk := true,
      mkdirParentsOk := true, renameOk := true }
    ⟨none, ["/c/.tmp/old"]⟩ "boom" (by decide)

/-- C2: if `GetOrPut` acquires the lock and the re-check `Get` returns a
non-empty path, the call returns exactly that path and the producer is
never invoked; conversely the producer is invoked only when the lock was
acquired and the re-check missed. -/
theorem getOrPut_recheck_hit_skips_producer (base ns name ver : String)
    (env : FilesystemCache.GopEnv) (fs : FilesystemCache.FS) :
    (env.lockOk = true →
      (FilesystemCache.Get env.statOk (FilesystemCache.providerDir base ns name ver)
          fs.canon name).1 ≠ "" →
      FilesystemCache.GetOrPut base ns name ver env fs =
        (.ok (FilesystemCache.Get env.statOk (FilesystemCache.providerDir base ns name ver)
          fs.canon name).1, fs, false)) ∧
    ((FilesystemCache.GetOrPut base ns name ver env fs).2.2 = true →
      env.lockOk = true ∧
      (FilesystemCache.Get env.statOk (FilesystemCache.providerDir base ns name ver)
          fs.canon name).1 = "") := by
  constructor
  · intro hl hx
    unfold FilesystemCache.GetOrPut
    dsimp only
    rw [hl]
    simp [hx]
  · intro hinv
    unfold FilesystemCache.GetOrPut at hinv
    dsimp only at hinv
    repeat' split at hinv
    all_goals simp_all

/-- C2 witness: at a concrete populated cache, `GetOrPut` returns the
re-check hit and reports the producer as not invoked. -/
theorem getOrPut_recheck_hit_skips_producer_witness :
    FilesystemCache.GetOrPut "/c" "ns" "prov" "1.0.0"
      { lockOk := true, statOk := fun _ => true, download := .error "unused",
        zipOpenOk := true, tmpSuffix := some "ab12", chmodOk := true,
        mkdirParentsOk := true, renameOk := true }
      { canon := some ["terraform-provider-prov_v1"], tmps := [] } =
    (.ok (FilesystemCache.Get (fun _ => true)
        (FilesystemCache.providerDir "/c" "ns" "prov" "1.0.0")
        (some ["terraform-provider-prov_v1"]) "prov").1,
      ⟨some ["terraform-provider-prov_v1"], []⟩, false) :=
  (getOrPut_recheck_hit_skips_producer "/c" "ns" "prov" "1.0.0"
    { lockOk := true, statOk := fun _ => true, download := .error "unused",
      zipOpenOk := true, tmpSuffix := some "ab12", chmodOk := true,
      mkdirParentsOk := true, renameOk := true }
    ⟨some ["terraform-provider-prov_v1"], []⟩).1 rfl (by decide)

/-- C3: an archive with any entry whose resolved destination path (after
path cleaning) does not remain within the destination root fails the whole
extraction; inside `GetOrPut` such an archive makes the call fail with the
canonical directory left exactly as before (in particular not created) and
the staging area clean; and a `../etc/passwd` entry escapes a staging
directory. -/
theorem extractZip_zip_slip_rejected :
    (∀ (openOk : Bool) (entries : List ZipEntry) (destDir : String),
      (∃ en ∈ entries, escapesDest destDir en.name = true) →
      ∃ msg, extractZip openOk entries destDir = .error msg) ∧
    (∀ (base ns name ver suf : String) (env : FilesystemCache.GopEnv)
        (fs : FilesystemCache.FS) (entries : List ZipEntry),
      env.lockOk = true →
      (FilesystemCache.Get env.statOk (FilesystemCache.providerDir base ns name ver)
          fs.canon name).1 = "" →
      env.download = .ok entries →
      env.tmpSuffix = some suf →
      (∃ en ∈ entries, escapesDest (base ++ "/.tmp/" ++ suf) en.name = true) →
      (∃ msg, (FilesystemCache.GetOrPut base ns name ver env fs).1 = .error msg) ∧
      (FilesystemCache.GetOrPut base ns name ver env fs).2.1 = fs) ∧
    (escapesDest "/c/.tmp/ab12" "../etc/passwd" = true) := by
  have hextract : ∀ (openOk : Bool) (entries : List ZipEntry) (destDir : String),
      (∃ en ∈ entries, escapesDest destDir en.name = true) →
      ∃ msg, extractZip openOk entries destDir = .error msg := by
    intro openOk entries destDir h
    unfold extractZip
    cases openOk
    · exact ⟨_, rfl⟩
    · simpa using extractLoop_error_of_escape destDir entries [] h
  refine ⟨hextract, ?_, by decide⟩
  intro base ns name ver suf env fs entries hl hmiss hdl htmp hesc
  obtain ⟨msg, hmsg⟩ := hextract env.zipOpenOk entries (base ++ "/.tmp/" ++ suf) hesc
  unfold FilesystemCache.GetOrPut
  dsimp only
  rw [hl, hmiss, hdl, htmp]
  simp [hmsg]

/-- C3 witness: a concrete archive holding a `../etc/passwd` entry makes a
concrete `GetOrPut` run fail and leave the state unchanged. -/
theorem extractZip_zip_slip_rejected_witness :
    (∃ msg, (FilesystemCache.GetOrPut "/c" "ns" "prov" "1.0.0"
      { lockOk := true, statOk := fun _ => true,
        download := .ok [⟨"../etc/passwd", false⟩],
        zipOpenOk := true, tmpSuffix := some "ab12", chmodOk := true,
        mkdirParentsOk := true, renameOk := true }
      { canon := none, tmps := [] }).1 = .error msg) ∧
    (FilesystemCache.GetOrPut "/c" "ns" "prov" "1.0.0"
      { lockOk := true, statOk := fun _ => true,
        download := .ok [⟨"../etc/passwd", false⟩],
        zipOpenOk := true, tmpSuffix := some "ab12", chmodOk := true,
        mkdirParentsOk := true, renameOk := true }
      { canon := none, tmps := [] }).2.1 = ⟨none, []⟩ :=
  extractZip_zip_slip_rejected.2.1 "/c" "ns" "prov" "1.0.0" "ab12"
    { lockOk := true, statOk := fun _ => true,
      download := .ok [⟨"../etc/passwd", false⟩],
      zipOpenOk := true, tmpSuffix := some "ab12", chmodOk := true,
      mkdirParentsOk := true, renameOk := true }
    ⟨none, []⟩ [⟨"../etc/passwd", false⟩]
    rfl (by decide) rfl rfl ⟨⟨"../etc/passwd", false⟩, by decide, by decide⟩

/-- C4: a `CreateProvider` call whose resolved key already has a live
session returns that session with no download and no launch (both for an
explicit version and for an empty version resolved by a steady registry);
the session map never acquires two entries for one resolved key; and two
consecutive empty-version calls against a steady registry bind to the same
session. -/
theorem createProvider_session_memoization (env env2 : Client.CPEnv)
    (st : Client.ClientState) (ns name ver v : String) (s : Nat) :
    (ver ≠ "" →
      st.providers.lookup (Client.providerKey ns name ver) = some s →
      Client.CreateProvider env st ns name ver = (.ok s, st, ⟨false, false⟩)) ∧
    (env.latest = .ok v →
      st.providers.lookup (Client.providerKey ns name v) = some s →
      (Client.CreateProvider env st ns name "").1 = .ok s ∧
      (Client.CreateProvider env st ns name "").2.1.providers = st.providers ∧
      (Client.CreateProvider env st ns name "").2.2 = ⟨false, false⟩) ∧
    ((st.providers.map Prod.fst).Nodup →
      ((Client.CreateProvider env st ns name ver).2.1.providers.map Prod.fst).Nodup) ∧
    (∀ st1 ev, env.latest = .ok v → env2.latest = .ok v →
      Client.CreateProvider env st ns name "" = (.ok s, st1, ev) →
      (Client.CreateProvider env2 st1 ns name "").1 = .ok s ∧
      (Client.CreateProvider env2 st1 ns name "").2.2 = ⟨false, false⟩) := by
  refine ⟨?_, ?_, ?_, ?_⟩
  · intro hv hl
    unfold Client.CreateProvider
    simp only [hv, if_false, hl]
  · intro hlat hl
    unfold Client.CreateProvider
    simp [hlat, hl]
  · intro hnd
    unfold Client.CreateProvider
    dsimp only
    repeat' split
    all_goals simp_all
    all_goals (intro x hx; solve_by_elim)
  · intro st1 ev hlat hlat2 hcall
    have hlook : st1.providers.lookup (Client.providerKey ns name v) = some s := by
      unfold Client.CreateProvider at hcall
      dsimp only at hcall
      rw [if_pos rfl, hlat] at hcall
      dsimp only at hcall
      repeat' split at hcall
      all_goals simp only [Prod.mk.injEq] at hcall
      all_goals obtain ⟨h1, rfl, rfl⟩ := hcall
      all_goals simp_all [List.lookup_cons]
    unfold Client.CreateProvider
    simp [hlat2, hlook]

/-- C4 witness: with a live session registered under `x/y@1.1.0`, a second
explicit-version call returns it and performs no download or launch. -/
theorem createProvider_session_memoization_witness :
    Client.CreateProvider
      { latest := .ok "1.1.0", download := .ok "/c/x/y/1.1.0/terraform-provider-y",
        launch := .ok, schema := .ok () }
      { providers := [("x/y@1.1.0", 7)], latestKeys := [], nextSession := 8 }
      "x" "y" "1.1.0" =
    (.ok 7, ⟨[("x/y@1.1.0", 7)], [], 8⟩, ⟨false, false⟩) :=
  (createProvider_session_memoization
    { latest := .ok "1.1.0", download := .ok "/c/x/y/1.1.0/terraform-provider-y",
      launch := .ok, schema := .ok () }
    { latest := .ok "1.1.0", download := .ok "/c/x/y/1.1.0/terraform-provider-y",
      launch := .ok, schema := .ok () }
    ⟨[("x/y@1.1.0", 7)], [], 8⟩ "x" "y" "1.1.0" "1.1.0" 7).1
    (by decide) (by decide)

/-- C5: `GetLatestVersion` over the list `0.9.10, 0.10.0, 1.0.0-beta,
1.0.0` returns `1.0.0`; over an empty version list it fails with the
"no versions found" error; and in general it returns the version string of
an element of the list that is greatest under the `semverParts` integer
triple comparison. -/
theorem getLatestVersion_ordering :
    (Registry.GetLatestVersion "x" "y"
      (.ok [⟨"0.9.10", []⟩, ⟨"0.10.0", []⟩, ⟨"1.0.0-beta", []⟩, ⟨"1.0.0", []⟩]) =
        .ok "1.0.0") ∧
    (∀ ns name, Registry.GetLatestVersion ns name (.ok []) =
      .error ("no versions found for provider " ++ ns ++ "/" ++ name)) ∧
    (∀ ns name (vs : List Registry.VersionInfo) (v : String),
      Registry.GetLatestVersion ns name (.ok vs) = .ok v →
      ∃ vi ∈ vs, vi.version = v ∧ ∀ w ∈ vs, Registry.verLe w vi) := by
  refine ⟨by decide, fun ns name => rfl, ?_⟩
  intro ns name vs v h
  unfold Registry.GetLatestVersion at h
  by_cases hvs : vs.isEmpty
  · simp [hvs] at h
  · simp only [hvs, Bool.false_eq_true, if_false] at h
    have hne : List.insertionSort Registry.verLe vs ≠ [] := by
      intro hnil
      rw [List.isEmpty_iff] at hvs
      have := List.length_insertionSort Registry.verLe vs
      rw [hnil] at this
      exact hvs (List.length_eq_zero.mp this.symm)
    obtain ⟨m, hm⟩ := Option.isSome_iff_exists.mp (List.getLast?_isSome.mpr hne)
    obtain ⟨hmem, hmax⟩ := sorted_getLast?_max
      (fun a b => IsTotal.total a b)
      (List.sorted_insertionSort Registry.verLe vs) m hm
    refine ⟨m, (List.mem_insertionSort Registry.verLe).mp hmem, ?_, ?_⟩
    · rw [List.getLastD_eq_getLast?, hm] at h
      cases h
      rfl
    · intro w hw
      exact hmax w ((List.mem_insertionSort Registry.verLe).mpr hw)

/-- C5 witness: the returned `1.0.0` is an element of the demo list and is
maximal under the triple comparison. -/
theorem getLatestVersion_ordering_witness :
    ∃ vi ∈ [(⟨"0.9.10", []⟩ : Registry.VersionInfo), ⟨"0.10.0", []⟩,
        ⟨"1.0.0-beta", []⟩, ⟨"1.0.0", []⟩],
      vi.version = "1.0.0" ∧
      ∀ w ∈ [(⟨"0.9.10", []⟩ : Registry.VersionInfo), ⟨"0.10.0", []⟩,
          ⟨"1.0.0-beta", []⟩, ⟨"1.0.0", []⟩], Registry.verLe w vi :=
  getLatestVersion_ordering.2.2 "x" "y"
    [⟨"0.9.10", []⟩, ⟨"0.10.0", []⟩, ⟨"1.0.0-beta", []⟩, ⟨"1.0.0", []⟩]
    "1.0.0" (by decide)

/-- C6: when the launch handshake fails with a message matching the
protocol-version pattern, `CreateProvider` surfaces the typed
`protocolUnsupported` error carrying the two parsed integers; a
non-matching handshake failure surfaces `launchFailed` instead; and the
go-plugin incompatibility message containing `Plugin version: 5, Client
versions: [6]` parses to the pair `(5, 6)`. -/
theorem launch_protocol_mismatch_detection (env : Client.CPEnv)
    (st : Client.ClientState) (ns name ver msg pth : String) (p c : Nat) :
    (ver ≠ "" →
      st.providers.lookup (Client.providerKey ns name ver) = none →
      env.download = .ok pth →
      env.launch = .clientErr msg →
      findPV msg.data = some (p, c) →
      (Client.CreateProvider env st ns name ver).1 =
        .error (.protocolUnsupported ns name ver p c)) ∧
    (ver ≠ "" →
      st.providers.lookup (Client.providerKey ns name ver) = none →
      env.download = .ok pth →
      env.launch = .clientErr msg →
      findPV msg.data = none →
      (Client.CreateProvider env st ns name ver).1 =
        .error (.launchFailed ns name ver ("failed to get RPC client: " ++ msg))) ∧
    (findPV "incompatible API version with plugin. Plugin version: 5, Client versions: [6]".data
      = some (5, 6)) := by
  refine ⟨?_, ?_, by decide⟩
  · intro hv hl hdl hla hpv
    unfold Client.CreateProvider
    simp only [hv, if_false, hl, hdl]
    unfold Provider.launchProvider
    simp [hla, hpv]
  · intro hv hl hdl hla hpv
    unfold Client.CreateProvider
    simp only [hv, if_false, hl, hdl]
    unfold Provider.launchProvider
    simp [hla, hpv]

/-- C6 witness: launching a concrete protocol-5 provider surfaces
`protocolUnsupported` with provider protocol 5 and client protocol 6. -/
theorem launch_protocol_mismatch_detection_witness :
    (Client.CreateProvider
      { latest := .ok "3.8.0", download := .ok "/c/h/random/3.8.0/terraform-provider-random",
        launch := .clientErr
          "incompatible API version with plugin. Plugin version: 5, Client versions: [6]",
        schema := .ok () }
      { providers := [], latestKeys := [], nextSession := 0 }
      "hashicorp" "random" "3.8.0").1 =
    .error (.protocolUnsupported "hashicorp" "random" "3.8.0" 5 6) :=
  (launch_protocol_mismatch_detection
    { latest := .ok "3.8.0", download := .ok "/c/h/random/3.8.0/terraform-provider-random",
      launch := .clientErr
        "incompatible API version with plugin. Plugin version: 5, Client versions: [6]",
      schema := .ok () }
    ⟨[], [], 0⟩ "hashicorp" "random" "3.8.0"
    "incompatible API version with plugin. Plugin version: 5, Client versions: [6]"
    "/c/h/random/3.8.0/terraform-provider-random" 5 6).1
    (by decide) rfl rfl rfl (by decide)

/-- C7: a registry 404 on the download-info request propagates through the
producer, `GetOrPut` and `CreateProvider` as a `downloadFailed` error
wrapping the generic "version ... not found" string, not as the typed
`versionNotFound` error that errors.go declares for this case. -/
theorem downloadInfo404_wrapped_as_downloadFailed :
    (Client.CreateProvider
      { latest := .ok "9.9.9",
        download := (FilesystemCache.GetOrPut "/c" "hashicorp" "aws" "9.9.9"
          { lockOk := true, statOk := fun _ => false,
            download :=
              (match Client.producerResult (.resp 404 true default) true none
                  "hashicorp" "aws" "9.9.9" "/t/p.zip" with
                | .error e => .error e
                | .ok _ => .ok []),
            zipOpenOk := true, tmpSuffix := some "ab", chmodOk := true,
            mkdirParentsOk := true, renameOk := true }
          { canon := none, tmps := [] }).1,
        launch := .ok, schema := .ok () }
      { providers := [], latestKeys := [], nextSession := 0 }
      "hashicorp" "aws" "9.9.9").1 =
    .error (.downloadFailed "hashicorp" "aws" "9.9.9"
      "failed to get download info: version 9.9.9 not found for provider hashicorp/aws") := by
  decide

/-- C8: `Get` never returns an error; it returns a non-empty path only
when the directory listing holds a file matching
`terraform-provider-<name>*` whose full path stats successfully, and the
returned path is that file; and `Has` is true exactly when `Get` returns a
non-empty path. -/
theorem cache_get_has_contract (statOk : String → Bool) (dirPath : String)
    (listing : Option (List String)) (name : String) :
    ((FilesystemCache.Get statOk dirPath listing name).2 = none) ∧
    ((FilesystemCache.Get statOk dirPath listing name).1 ≠ "" →
      ∃ f ∈ listing.getD [], strPref ("terraform-provider-" ++ name) f = true ∧
        (FilesystemCache.Get statOk dirPath listing name).1 = dirPath ++ "/" ++ f ∧
        statOk (dirPath ++ "/" ++ f) = true) ∧
    (FilesystemCache.Has statOk dirPath listing name = true ↔
      (FilesystemCache.Get statOk dirPath listing name).1 ≠ "") := by
  refine ⟨?_, ?_, ?_⟩
  · unfold FilesystemCache.Get
    dsimp only
    split <;> rfl
  · intro hne
    unfold FilesystemCache.Get at hne ⊢
    dsimp only at hne ⊢
    split at hne
    · rename_i hcond
      rw [Bool.and_eq_true] at hcond
      unfold FilesystemCache.findProviderExecutable at hcond ⊢
      split at hcond
      · simp at hcond
      · rename_i f rest hfilter
        have hf : f ∈ (listing.getD []).filter
            (fun f => strPref ("terraform-provider-" ++ name) f) := by
          rw [hfilter]; exact List.mem_cons_self f rest
        refine ⟨f, List.mem_of_mem_filter hf, List.of_mem_filter hf, ?_, ?_⟩
        · simp [hcond.1, hcond.2]
        · exact hcond.2
    · simp at hne
  · unfold FilesystemCache.Has
    exact ⟨fun h => of_decide_eq_true h, fun h => decide_eq_true h⟩

/-- C8 witness: on a concrete listing, the non-empty `Get` result is the
matching stat-able file. -/
theorem cache_get_has_contract_witness :
    ∃ f ∈ (some ["terraform-provider-prov_v1"] : Option (List String)).getD [],
      strPref ("terraform-provider-" ++ "prov") f = true ∧
      (FilesystemCache.Get (fun _ => true) "/c/ns/prov/1.0.0"
        (some ["terraform-provider-prov_v1"]) "prov").1 = "/c/ns/prov/1.0.0" ++ "/" ++ f ∧
      (fun _ => true : String → Bool) ("/c/ns/prov/1.0.0" ++ "/" ++ f) = true :=
  (cache_get_has_contract (fun _ => true) "/c/ns/prov/1.0.0"
    (some ["terraform-provider-prov_v1"]) "prov").2.1 (by decide)

/-- C9: decoding a dynamic-value envelope yields the msgpack decoding when
the msgpack bytes are non-empty (preferred over JSON), else the JSON
decoding when the JSON bytes are non-empty, else (both empty or envelope
absent) the null typed value. -/
theorem decodeDynamicValue_payload_dispatch {Ty Val : Type} (nullVal : Ty → Val)
    (mpUnmarshal jsonUnmarshal : List Nat → Ty → Except String Val)
    (dv : Option DynValue) (ty : Ty) :
    (dv = none →
      decodeDynamicValue nullVal mpUnmarshal jsonUnmarshal dv ty = .ok (nullVal ty)) ∧
    (∀ d, dv = some d → d.msgpack ≠ [] →
      decodeDynamicValue nullVal mpUnmarshal jsonUnmarshal dv ty = mpUnmarshal d.msgpack ty) ∧
    (∀ d, dv = some d → d.msgpack = [] → d.json ≠ [] →
      decodeDynamicValue nullVal mpUnmarshal jsonUnmarshal dv ty = jsonUnmarshal d.json ty) ∧
    (∀ d, dv = some d → d.msgpack = [] → d.json = [] →
      decodeDynamicValue nullVal mpUnmarshal jsonUnmarshal dv ty = .ok (nullVal ty)) := by
  refine ⟨?_, ?_, ?_, ?_⟩
  · rintro rfl; rfl
  · rintro d rfl hmp
    unfold decodeDynamicValue
    dsimp only
    rw [if_pos (List.length_pos.mpr hmp)]
  · rintro d rfl hmp hjs
    unfold decodeDynamicValue
    dsimp only
    rw [if_neg (by simp [hmp]), if_pos (List.length_pos.mpr hjs)]
  · rintro d rfl hmp hjs
    unfold decodeDynamicValue
    dsimp only
    rw [if_neg (by simp [hmp]), if_neg (by simp [hjs])]

/-- C9 witness: with both payloads present, the msgpack decoder is used. -/
theorem decodeDynamicValue_payload_dispatch_witness :
    decodeDynamicValue (fun _ => 0) (fun b _ => .ok b.length) (fun b _ => .ok (100 + b.length))
      (some ⟨[9], [7, 7]⟩) () = .ok ([9] : List Nat).length :=
  (decodeDynamicValue_payload_dispatch (fun _ => 0)
    (fun b _ => .ok b.length) (fun b _ => .ok (100 + b.length))
    (some ⟨[9], [7, 7]⟩) ()).2.1 ⟨[9], [7, 7]⟩ rfl (by decide)

/-- C10: a failing `Configure` call leaves the session state unchanged;
the configured flag is set after a call exactly when it was already set or
the call succeeded (which requires the schema conversion, encoding, RPC
and diagnostics steps all to succeed); hence starting from an unconfigured
session, `IsConfigured` is true exactly when some earlier `Configure` call
returned success. -/
theorem configure_sets_flag_iff_success (env : Provider.CfgEnv) (p : Provider.ProvState)
    (envs : List Provider.CfgEnv) (p0 : Provider.ProvState) :
    (∀ e, (Provider.Configure env p).1 = .error e →
      (Provider.Configure env p).2 = p) ∧
    ((Provider.Configure env p).2.configured = true ↔
      (p.configured = true ∨ (Provider.Configure env p).1 = .ok ())) ∧
    (p0.configured = false →
      (Provider.IsConfigured (Provider.runConfigures envs p0) = true ↔
        ∃ e ∈ envs, Provider.configureSucceeds e p0 = true)) := by
  refine ⟨fun e he => configure_error_id env p e he, ?_, ?_⟩
  · unfold Provider.Configure
    repeat' split
    all_goals simp_all
  · intro h0
    unfold Provider.IsConfigured
    induction envs generalizing p0 with
    | nil =>
      unfold Provider.runConfigures
      simp [h0]
    | cons e es ih =>
      unfold Provider.runConfigures at ih ⊢
      simp only [List.foldl_cons, List.mem_cons]
      by_cases hs : Provider.configureSucceeds e p0 = true
      · constructor
        · intro _; exact ⟨e, Or.inl rfl, hs⟩
        · intro _
          unfold Provider.configureSucceeds at hs
          cases hok : (Provider.Configure e p0).1 with
          | error e2 => rw [hok] at hs; cases hs
          | ok u => exact configured_mono es _ (configure_ok_flag e p0 u hok)
      · cases hok : (Provider.Configure e p0).1 with
        | ok u =>
          exact absurd (by unfold Provider.configureSucceeds; rw [hok]) hs
        | error e2 =>
          rw [configure_error_id e p0 e2 hok, ih p0 h0]
          constructor
          · rintro ⟨e2, hm, hsu⟩
            exact ⟨e2, Or.inr hm, hsu⟩
          · rintro ⟨e2, hm2, hsu⟩
            rcases hm2 with rfl | hm2
            · exact absurd hsu hs
            · exact ⟨e2, hm2, hsu⟩

/-- C10 witness: after one failing call (RPC error) and one succeeding
call, the session reports configured. -/
theorem configure_sets_flag_iff_success_witness :
    Provider.IsConfigured (Provider.runConfigures
      [⟨true, true, true, false, true⟩, ⟨true, true, true, true, true⟩]
      ⟨some ⟨some (), ["ds"]⟩, false⟩) = true ↔
    ∃ e ∈ [(⟨true, true, true, false, true⟩ : Provider.CfgEnv),
        ⟨true, true, true, true, true⟩],
      Provider.configureSucceeds e ⟨some ⟨some (), ["ds"]⟩, false⟩ = true :=
  (configure_sets_flag_iff_success ⟨true, true, true, true, true⟩
    ⟨some ⟨some (), ["ds"]⟩, false⟩
    [⟨true, true, true, false, true⟩, ⟨true, true, true, true, true⟩]
    ⟨some ⟨some (), ["ds"]⟩, false⟩).2.2 rfl
